import Mathlib

/-!
Verification of the NFT price sync bot (`nft_price_sync_bot.py`).

Shallow embedding conventions:
* Python floats are modelled as exact rationals (`ℚ`).
* `round(x, 6)` is modelled as round-half-even on `x * 10 ^ 6` (Python uses
  banker rounding), divided back by `10 ^ 6`.
* Strings are Lean `String`s; JSON payloads are modelled as structures holding
  the already-decoded fields the code reads.
* The effectful HTTP functions are split into the request they construct and
  the pure handler applied to the decoded response, plus (for the retry
  wrapper) an oracle giving the transport outcome of each attempt.
-/

namespace NftBot

/-- Round-half-even of a rational to an integer, as Python `round` behaves on
ties.  The source rounds with `round(target, 6)`. -/
def roundHalfEven (x : ℚ) : ℤ :=
  if x - ⌊x⌋ < 1/2 then ⌊x⌋
  else if 1/2 < x - ⌊x⌋ then ⌊x⌋ + 1
  else if 2 ∣ ⌊x⌋ then ⌊x⌋ else ⌊x⌋ + 1

/-- `round(x, 6)` from the source: round to 6 decimal places. -/
def round6 (x : ℚ) : ℚ :=
  (roundHalfEven (x * 1000000) : ℚ) / 1000000

/-- The candidate target of `compute_target_price` before the deadband check
(lines 194-200 of the source): the strategy branch including the
`min_guard` raise in the `undercut_floor` branch. -/
def candidate_target (floor top_bid margin_pct : ℚ) (strategy : String) : ℚ :=
  if strategy = "above_top_bid" then
    top_bid * (1 + margin_pct)
  else
    if floor * (1 - margin_pct) < top_bid * (1001/1000) then top_bid * (1001/1000)
    else floor * (1 - margin_pct)

/-- `compute_target_price(floor, top_bid, current_price, margin_pct, strategy)`
from the source (lines 188-204): strategy branch, then the deadband
`abs(target - current_price) / max(current_price, 1e-9) < 0.001` returning
`current_price`, else `round(target, 6)`. -/
def compute_target_price (floor top_bid current_price margin_pct : ℚ)
    (strategy : String) : ℚ :=
  if |candidate_target floor top_bid margin_pct strategy - current_price| /
       max current_price (1/1000000000) < 1/1000 then
    current_price
  else
    round6 (candidate_target floor top_bid margin_pct strategy)

/-- Helper for substring replacement: if `pat` is a leading pattern of the
character list, return the remainder after it. -/
def dropPat : List Char → List Char → Option (List Char)
  | [], rest => some rest
  | _ :: _, [] => none
  | p :: ps, c :: cs => if p = c then dropPat ps cs else none

/-- Left-to-right non-overlapping removal of every occurrence of `pat`,
fuel-bounded by the length of the scanned list (sufficient fuel for any
non-empty pattern). -/
def replaceAllGo (pat : List Char) : Nat → List Char → List Char
  | 0, l => l
  | _ + 1, [] => []
  | fuel + 1, c :: cs =>
    match dropPat pat (c :: cs) with
    | some rest => replaceAllGo pat fuel rest
    | none => c :: replaceAllGo pat fuel cs

/-- Python `val.replace(pat, "")`: delete every occurrence of `pat`. -/
def replaceAll (val pat : String) : String :=
  String.mk (replaceAllGo pat.data val.data.length val.data)

/-- Base-10 digit-string parsing, the digits-only core of Python `int`. -/
def digitsToNat : List Char → Option Nat
  | [] => none
  | cs =>
    if cs.all Char.isDigit then
      some (cs.foldl (fun n c => 10 * n + (c.toNat - 48)) 0)
    else none

/-- Python `int(s)` on a base-10 literal with an optional sign.  (Python
also tolerates surrounding whitespace and underscore separators; no payload in
this development uses them.) -/
def parseInt (s : String) : Option Int :=
  match s.data with
  | '-' :: rest => (digitsToNat rest).map (fun n => -(n : Int))
  | '+' :: rest => (digitsToNat rest).map (fun n => (n : Int))
  | cs => (digitsToNat cs).map (fun n => (n : Int))

/-- `parse_bigint(val)` from the source (lines 146-147): strip the `$bigint`
marker, parse the remaining base-10 integer, divide by `1e18`.  Parsing
failure (which raises in Python) is `none`. -/
def parse_bigint (val : String) : Option ℚ :=
  (parseInt (replaceAll val "$bigint")).map (fun n => (n : ℚ) / 10 ^ 18)

/-- The native-currency sentinel token address from line 178 of the source. -/
def NATIVE_TOKEN_ADDRESS : String :=
  "0x2fe0f0404431023d0ea86259e3fb6fadd8d78102de6e2f5aaac47be519184e1b"

/-- One consideration item of a Marketplace B listing; `end_amount` is the
already-parsed integer of the base-10 `end_amount` string. -/
structure ConsiderationItem where
  token_address : String
  end_amount : Int
deriving DecidableEq

structure Listing where
  listing_consideration_items : List ConsiderationItem
deriving DecidableEq

/-- A decoded Marketplace B listings response: the `data.listings` sequence,
with absent `data` or `listings` keys decoding to the empty list (the
source reads them with `.get(..., default)`). -/
structure ListingsResponse where
  listings : List Listing
deriving DecidableEq

/-- An HTTP request as the bot builds it: method, URL and query parameters. -/
structure HttpRequest where
  method : String
  url : String
  params : List (String × String)
deriving DecidableEq

/-- `LiquidLootClient.__init__` state (lines 156-159). -/
structure LiquidLootClient where
  base_url : String
  api_key : Option String
  wallet : Option String

/-- The request `LiquidLootClient.get_floor_price` issues (lines 165-166):
`GET {base_url}/listings` with no query parameters — the `params` argument of
`http_request` is left at its default and `self.wallet` is never consulted.
The `slug` argument is accepted, as in the source, to state how it is used. -/
def LiquidLootClient.listings_request (c : LiquidLootClient) (slug : String) :
    HttpRequest :=
  { method := "GET", url := c.base_url ++ "/listings", params := [] }

/-- The price a consideration item contributes (lines 177-181): only items
whose token address is the native sentinel count, at `end_amount / 1e18`. -/
def itemPrice (item : ConsiderationItem) : Option ℚ :=
  if item.token_address = NATIVE_TOKEN_ADDRESS then
    some ((item.end_amount : ℚ) / 10 ^ 18)
  else none

/-- The `prices` list built by the nested loops of lines 175-181, in
iteration order. -/
def nativePrices (listings : List Listing) : List ℚ :=
  (listings.map (fun l => l.listing_consideration_items.filterMap itemPrice)).flatten

/-- Python `min(prices) if prices else None`. -/
def listMin : List ℚ → Option ℚ
  | [] => none
  | x :: xs => some (xs.foldl min x)

/-- The response handling of `LiquidLootClient.get_floor_price` (lines
171-183): `None` when the listings list is empty, otherwise the minimum
native-currency price (or `None` when no item is native). -/
def LiquidLootClient.get_floor_price (c : LiquidLootClient) (slug : String)
    (resp : ListingsResponse) : Option ℚ :=
  if resp.listings.isEmpty then none
  else listMin (nativePrices resp.listings)

/-- The two-value Marketplace B reader the specification describes
(`get_floor_and_topbid`): the no-data value on an empty price list, otherwise
the pair (floor = minimum, top bid = maximum) of the native-currency prices.
Stated from the specification to compare against
`LiquidLootClient.get_floor_price`, the reader the source implements. -/
def get_floor_and_topbid_spec (resp : ListingsResponse) : Option (ℚ × ℚ) :=
  match nativePrices resp.listings with
  | [] => none
  | x :: xs => some (xs.foldl min x, xs.foldl max x)

/-- A concrete listings response: native-currency end amounts
`1e18`, `3e18`, `2e18` plus one non-native item. -/
def exampleResp : ListingsResponse :=
  ⟨[⟨[⟨NATIVE_TOKEN_ADDRESS, 1000000000000000000⟩,
      ⟨"0xOTHERTOKEN", 5000000000000000000⟩]⟩,
    ⟨[⟨NATIVE_TOKEN_ADDRESS, 3000000000000000000⟩]⟩,
    ⟨[⟨NATIVE_TOKEN_ADDRESS, 2000000000000000000⟩]⟩]⟩

/-- A client with a configured wallet address. -/
def exampleLLC : LiquidLootClient := ⟨"https://ll.example", none, some "0xWALLET"⟩

/-- One transport outcome of an attempt inside `http_request`: a returned
response with its status code, a timeout, or a connection error. -/
inductive Outcome where
  | resp (status : Nat)
  | timeoutErr
  | connErr
deriving DecidableEq

/-- The exceptions `http_request` catches and re-raises. -/
inductive HttpError where
  | serverError (status : Nat)
  | timeoutErr
  | connErr
deriving DecidableEq

/-- One attempt body of `http_request` (lines 103-106): a response with
status at least 500 is converted into a retryable error; a status below 500
(4xx included) is returned as an ordinary response; timeouts and connection
errors are retryable errors. -/
def attemptOutcome : Outcome → Except HttpError Nat
  | .resp s => if 500 ≤ s then .error (.serverError s) else .ok s
  | .timeoutErr => .error .timeoutErr
  | .connErr => .error .connErr

/-- The retry loop of `http_request` (lines 101-112).  `attempt` is the
1-based attempt number; `fuel` is the number of retries still allowed after
the current attempt (`retries - attempt` in the source, whose loop runs
`attempt` from 1 to `retries` and re-raises when `attempt == retries`).
Returns the final result and the list of backoff sleeps performed, each
`backoff ^ attempt` seconds. -/
def httpGo (oracle : Nat → Outcome) (backoff : ℚ) :
    Nat → Nat → Except HttpError Nat × List ℚ
  | 0, attempt => (attemptOutcome (oracle attempt), [])
  | fuel + 1, attempt =>
    match attemptOutcome (oracle attempt) with
    | .ok s => (.ok s, [])
    | .error _ =>
      let rest := httpGo oracle backoff fuel (attempt + 1)
      (rest.1, backoff ^ attempt :: rest.2)

/-- `http_request` (line 99) over an oracle giving each attempt's transport
outcome; `retries` defaults to 3 and `backoff` to 1.5 in the source. -/
def http_request (oracle : Nat → Outcome) (retries : Nat) (backoff : ℚ) :
    Except HttpError Nat × List ℚ :=
  httpGo oracle backoff (retries - 1) 1

/-- The externally visible operations of the bot.  `computeTarget` and
`updateListing` model the pricing call and the listing-update request that
exist in the design but are never reached by `sync_collection`. -/
inductive Action where
  | fetchDripStats (slug : String)
  | fetchLLListings (slug : String)
  | logDrip (slug : String) (floor topBid : ℚ)
  | logLL (slug : String) (shown : Option ℚ)
  | computeTarget (floor topBid current margin : ℚ) (strategy : String)
  | updateListing (slug : String) (price : ℚ)
deriving DecidableEq

/-- Python truthiness of the optional float `loot_floor` on line 219:
the data-bearing log line is chosen only when the value is present and
non-zero. -/
def pyTruthy : Option ℚ → Bool
  | none => false
  | some x => x != 0

def Action.isPricingCall : Action → Bool
  | .computeTarget _ _ _ _ _ => true
  | _ => false

def Action.isUpdateRequest : Action → Bool
  | .updateListing _ _ => true
  | _ => false

/-- `PriceSyncBot.sync_collection` (lines 214-222) as the trace of operations
it performs: fetch the Drip stats, fetch the LiquidLoot listings, log both,
return.  `dry_run` is passed in to state that it is never consulted. -/
def sync_collection (slug : String) (dry_run : Bool) (dripStats : ℚ × ℚ)
    (llFloor : Option ℚ) : List Action :=
  [Action.fetchDripStats slug,
   Action.fetchLLListings slug,
   Action.logDrip slug dripStats.1 dripStats.2,
   Action.logLL slug (if pyTruthy llFloor then llFloor else none)]

/-- What one cycle of `run_forever` records for one collection: either the
trace of a successful sync, or the error log line (with the formatted
traceback) of a sync that raised. -/
inductive CycleEvent where
  | synced (slug : String) (trace : List Action)
  | errorLogged (slug : String) (trace : String)
deriving DecidableEq

def CycleEvent.slug : CycleEvent → String
  | .synced s _ => s
  | .errorLogged s _ => s

/-- The per-collection loop of one cycle of `PriceSyncBot.run_forever`
(lines 230-234): iterate the configured slugs in order; a sync that raises is
caught, logged with its traceback, and iteration continues with the next
slug.  `sync` gives, for each slug, either the action trace of its
`sync_collection` call or the exception text that call raised. -/
def run_cycle (slugs : List String) (sync : String → Except String (List Action)) :
    List CycleEvent :=
  slugs.map fun slug =>
    match sync slug with
    | .ok tr => CycleEvent.synced slug tr
    | .error msg => CycleEvent.errorLogged slug msg

/-- A sync outcome function that fails on exactly one slug. -/
def exampleSync : String → Except String (List Action) :=
  fun slug => if slug = "bad" then .error "boom" else .ok []

end NftBot

namespace NftBot

theorem roundHalfEven_ge (x : ℚ) : x - 1/2 ≤ (roundHalfEven x : ℚ) := by
  unfold roundHalfEven
  have h1 : (⌊x⌋ : ℚ) ≤ x := Int.floor_le x
  have h2 : x < ⌊x⌋ + 1 := Int.lt_floor_add_one x
  split_ifs with hlt hgt hev
  · linarith
  · push_cast; linarith
  · linarith
  · push_cast; linarith

theorem round6_ge (x : ℚ) : x - 1/2000000 ≤ round6 x := by
  have h := roundHalfEven_ge (x * 1000000)
  have h2 : (x * 1000000 - 1/2) / 1000000 ≤ (roundHalfEven (x * 1000000) : ℚ) / 1000000 := by
    gcongr
  calc x - 1/2000000 = (x * 1000000 - 1/2) / 1000000 := by ring
    _ ≤ round6 x := h2

theorem ctp_of_deadband (floor top_bid current_price margin_pct : ℚ) (strategy : String)
    (h : |candidate_target floor top_bid margin_pct strategy - current_price| /
          max current_price (1/1000000000) < 1/1000) :
    compute_target_price floor top_bid current_price margin_pct strategy
      = current_price := by
  unfold compute_target_price
  exact if_pos h

theorem ctp_of_no_deadband (floor top_bid current_price margin_pct : ℚ) (strategy : String)
    (h : ¬ (|candidate_target floor top_bid margin_pct strategy - current_price| /
          max current_price (1/1000000000) < 1/1000)) :
    compute_target_price floor top_bid current_price margin_pct strategy
      = round6 (candidate_target floor top_bid margin_pct strategy) := by
  unfold compute_target_price
  exact if_neg h

theorem candidate_above (floor top_bid margin_pct : ℚ) :
    candidate_target floor top_bid margin_pct "above_top_bid"
      = top_bid * (1 + margin_pct) := by
  unfold candidate_target
  exact if_pos rfl

theorem candidate_undercut (floor top_bid margin_pct : ℚ) :
    candidate_target floor top_bid margin_pct "undercut_floor" =
      if floor * (1 - margin_pct) < top_bid * (1001/1000) then top_bid * (1001/1000)
      else floor * (1 - margin_pct) := by
  unfold candidate_target
  exact if_neg (by decide)

theorem candidate_target_eq_max (floor top_bid margin_pct : ℚ) (strategy : String) :
    candidate_target floor top_bid margin_pct strategy =
      if strategy = "above_top_bid" then top_bid * (1 + margin_pct)
      else max (floor * (1 - margin_pct)) (top_bid * (1001/1000)) := by
  unfold candidate_target
  by_cases hs : strategy = "above_top_bid"
  · rw [if_pos hs, if_pos hs]
  · rw [if_neg hs, if_neg hs]
    rcases lt_or_ge (floor * (1 - margin_pct)) (top_bid * (1001/1000)) with h | h
    · rw [if_pos h, max_eq_right h.le]
    · rw [if_neg (not_lt.mpr h), max_eq_left h]

/-- C1, counterexample: with `floor = 0`, `top_bid = 1000`,
`current_price = 1000.5`, `margin_pct = 0` and strategy `undercut_floor`, the
guarded target is `1001`, the deadband fires (`0.5 / 1000.5 < 0.001`), and the
function returns `1000.5`, far below `top_bid * 1.001` minus the
6-decimal rounding epsilon `5e-7`. -/
theorem C1_counterexample :
    compute_target_price 0 1000 (2001/2) 0 "undercut_floor" = 2001/2 ∧
    ¬ (1000 * (1001/1000) - 1/2000000 ≤
        compute_target_price 0 1000 (2001/2) 0 "undercut_floor") := by
  have hcand : candidate_target 0 1000 0 "undercut_floor" = 1001 := by
    rw [candidate_undercut]
    norm_num
  have hval : compute_target_price 0 1000 (2001/2) 0 "undercut_floor" = 2001/2 := by
    apply ctp_of_deadband
    rw [hcand]
    norm_num [abs_of_nonneg]
  refine ⟨hval, ?_⟩
  rw [hval]
  norm_num

/-- C1, amended: for strategy `undercut_floor` the returned value is either
`current_price` unchanged (the deadband fired) or at least
`top_bid * 1.001 - 5e-7`, the rounding epsilon of rounding to 6 decimals. -/
theorem C1_undercut_guard (floor top_bid current_price margin_pct : ℚ) :
    compute_target_price floor top_bid current_price margin_pct "undercut_floor"
      = current_price ∨
    top_bid * (1001/1000) - 1/2000000 ≤
      compute_target_price floor top_bid current_price margin_pct "undercut_floor" := by
  by_cases hdb : |candidate_target floor top_bid margin_pct "undercut_floor" - current_price| /
      max current_price (1/1000000000) < 1/1000
  · left
    exact ctp_of_deadband floor top_bid current_price margin_pct "undercut_floor" hdb
  · right
    rw [ctp_of_no_deadband floor top_bid current_price margin_pct "undercut_floor" hdb]
    have hguard : top_bid * (1001/1000) ≤
        candidate_target floor top_bid margin_pct "undercut_floor" := by
      rw [candidate_undercut]
      split_ifs with h
      · exact le_refl _
      · exact le_of_not_lt h
    have hr := round6_ge (candidate_target floor top_bid margin_pct "undercut_floor")
    linarith

/-- C2, confirmed: whenever the candidate target of the chosen strategy is
within 0.1% of `current_price` (relative to `max(current_price, 1e-9)`),
`compute_target_price` returns `current_price` unchanged. -/
theorem C2_deadband (floor top_bid current_price margin_pct : ℚ) (strategy : String)
    (h : |candidate_target floor top_bid margin_pct strategy - current_price| /
          max current_price (1/1000000000) < 1/1000) :
    compute_target_price floor top_bid current_price margin_pct strategy
      = current_price :=
  ctp_of_deadband floor top_bid current_price margin_pct strategy h

/-- Witness for C2 at `floor = 1`, `top_bid = 1`, `current_price = 1`,
`margin_pct = 0`, strategy `above_top_bid`: the candidate target is `1`, the
relative gap is `0 < 0.001`, and the function returns `1`. -/
theorem C2_deadband_witness :
    (|candidate_target 1 1 0 "above_top_bid" - 1| / max 1 (1/1000000000) < (1/1000 : ℚ)) ∧
    compute_target_price 1 1 1 0 "above_top_bid" = 1 := by
  have h : |candidate_target 1 1 0 "above_top_bid" - 1| / max 1 (1/1000000000) < (1/1000 : ℚ) := by
    rw [candidate_above]
    norm_num [abs_of_nonneg]
  exact ⟨h, C2_deadband 1 1 1 0 "above_top_bid" h⟩

/-- C3, confirmed: the candidate target is `top_bid * (1 + margin_pct)` for
strategy `above_top_bid` and otherwise `floor * (1 - margin_pct)` raised to
`top_bid * 1.001` when below that guard; when the deadband does not apply the
function returns this target rounded to 6 decimal places. -/
theorem C3_strategy_target (floor top_bid current_price margin_pct : ℚ)
    (strategy : String)
    (h : ¬ (|(if strategy = "above_top_bid" then top_bid * (1 + margin_pct)
              else max (floor * (1 - margin_pct)) (top_bid * (1001/1000)))
              - current_price| / max current_price (1/1000000000) < 1/1000)) :
    compute_target_price floor top_bid current_price margin_pct strategy
      = round6 (if strategy = "above_top_bid" then top_bid * (1 + margin_pct)
                else max (floor * (1 - margin_pct)) (top_bid * (1001/1000))) := by
  rw [← candidate_target_eq_max] at h ⊢
  exact ctp_of_no_deadband floor top_bid current_price margin_pct strategy h

/-- Witness for C3 at `floor = 2`, `top_bid = 1`, `current_price = 5`,
`margin_pct = 0`, strategy `undercut_floor`: the candidate is
`max 2 1.001 = 2`, the relative gap `3/5` is not below `0.001`, and the
function returns `round6 2`. -/
theorem C3_strategy_target_witness :
    (¬ (|(if ("undercut_floor" : String) = "above_top_bid" then 1 * (1 + 0)
          else max ((2:ℚ) * (1 - 0)) (1 * (1001/1000))) - 5|
          / max 5 (1/1000000000) < (1/1000 : ℚ))) ∧
    compute_target_price 2 1 5 0 "undercut_floor"
      = round6 (if ("undercut_floor" : String) = "above_top_bid" then 1 * (1 + 0)
                else max ((2:ℚ) * (1 - 0)) (1 * (1001/1000))) := by
  have h : ¬ (|(if ("undercut_floor" : String) = "above_top_bid" then 1 * (1 + 0)
          else max ((2:ℚ) * (1 - 0)) (1 * (1001/1000))) - 5|
          / max 5 (1/1000000000) < (1/1000 : ℚ)) := by
    rw [if_neg (by decide : ¬ ("undercut_floor" : String) = "above_top_bid")]
    norm_num [abs_of_nonpos]
  exact ⟨h, C3_strategy_target 2 1 5 0 "undercut_floor" h⟩

/-- C4, counterexample: for a client whose wallet is configured
(`some "0xWALLET"`), the GET request issued to the listings endpoint carries
no `offerer_address` query parameter. -/
theorem C4_counterexample :
    ¬ ∃ v, ("offerer_address", v) ∈ (exampleLLC.listings_request "cool-cats").params := by
  rintro ⟨v, hv⟩
  simp [LiquidLootClient.listings_request] at hv

/-- C4, amended: whatever wallet is configured, the listings request of the
Marketplace B reader is a plain `GET {base_url}/listings` with no query
parameters at all — the stored wallet is never sent, so the returned listings
are not scoped to the wallet. -/
theorem C4_no_wallet_param (c : LiquidLootClient) (slug : String) :
    (c.listings_request slug).params = [] ∧
    (c.listings_request slug).url = c.base_url ++ "/listings" ∧
    (c.listings_request slug).method = "GET" :=
  ⟨rfl, rfl, rfl⟩

theorem foldl_min_spec (xs : List ℚ) : ∀ a : ℚ,
    xs.foldl min a ≤ a ∧ (∀ p ∈ xs, xs.foldl min a ≤ p) ∧
    (xs.foldl min a = a ∨ xs.foldl min a ∈ xs) := by
  induction xs with
  | nil =>
    intro a
    refine ⟨le_refl a, ?_, Or.inl rfl⟩
    intro p hp
    cases hp
  | cons x xs ih =>
    intro a
    have h := ih (min a x)
    have hfold : (x :: xs).foldl min a = xs.foldl min (min a x) := rfl
    refine ⟨?_, ?_, ?_⟩
    · rw [hfold]
      exact le_trans h.1 (min_le_left a x)
    · intro p hp
      rcases List.mem_cons.mp hp with hpx | hpxs
      · rw [hfold, hpx]
        exact le_trans h.1 (min_le_right a x)
      · rw [hfold]
        exact h.2.1 p hpxs
    · rw [hfold]
      rcases h.2.2 with heq | hmem
      · rcases min_choice a x with hax | hax
        · left; rw [heq, hax]
        · right; rw [heq, hax]; exact List.mem_cons_self x xs
      · right; exact List.mem_cons_of_mem x hmem

theorem exampleResp_nativePrices : nativePrices exampleResp.listings = [1, 3, 2] := by
  have h1 : itemPrice ⟨NATIVE_TOKEN_ADDRESS, 1000000000000000000⟩
      = some ((1000000000000000000 : ℚ) / 10 ^ 18) := if_pos rfl
  have h2 : itemPrice ⟨"0xOTHERTOKEN", 5000000000000000000⟩ = none := by
    unfold itemPrice
    rw [if_neg (by decide)]
  have h3 : itemPrice ⟨NATIVE_TOKEN_ADDRESS, 3000000000000000000⟩
      = some ((3000000000000000000 : ℚ) / 10 ^ 18) := if_pos rfl
  have h4 : itemPrice ⟨NATIVE_TOKEN_ADDRESS, 2000000000000000000⟩
      = some ((2000000000000000000 : ℚ) / 10 ^ 18) := if_pos rfl
  unfold nativePrices exampleResp
  simp only [List.map_cons, List.map_nil, List.filterMap_cons, List.filterMap_nil,
    h1, h2, h3, h4, List.flatten]
  norm_num

/-- C5, counterexample: on the concrete response with native-currency end
amounts `1e18`, `3e18`, `2e18`, the reader returns the single value
`some 1` — the floor only — and not the claimed pair carrying top bid `3`,
which the two-value reader of the specification would produce. -/
theorem C5_counterexample :
    LiquidLootClient.get_floor_price exampleLLC "cool-cats" exampleResp = some 1 ∧
    get_floor_and_topbid_spec exampleResp = some (1, 3) ∧
    LiquidLootClient.get_floor_price exampleLLC "cool-cats" exampleResp ≠ some 3 := by
  have hmin : LiquidLootClient.get_floor_price exampleLLC "cool-cats" exampleResp
      = some 1 := by
    unfold LiquidLootClient.get_floor_price
    rw [if_neg (by decide), exampleResp_nativePrices]
    unfold listMin
    simp only [List.foldl]
    norm_num [min_def]
  refine ⟨hmin, ?_, ?_⟩
  · unfold get_floor_and_topbid_spec
    rw [exampleResp_nativePrices]
    simp only [List.foldl]
    norm_num [min_def, max_def]
  · rw [hmin]
    intro hcontra
    have : (1 : ℚ) = 3 := Option.some.inj hcontra
    norm_num at this

/-- C5, amended: on a decoded response with no listings or with no
native-currency consideration item the reader returns the single no-data
value `none` (not a pair) without raising; otherwise it returns only the
floor: `some` of the minimum of the native-currency prices
(`end_amount / 1e18`).  The top bid (the maximum) is not returned. -/
theorem C5_floor_only (c : LiquidLootClient) (slug : String) (resp : ListingsResponse) :
    (nativePrices resp.listings = [] → c.get_floor_price slug resp = none) ∧
    (nativePrices resp.listings ≠ [] →
      ∃ m, c.get_floor_price slug resp = some m ∧
        m ∈ nativePrices resp.listings ∧
        ∀ p ∈ nativePrices resp.listings, m ≤ p) := by
  unfold LiquidLootClient.get_floor_price
  by_cases hempty : resp.listings.isEmpty
  · have hnil : resp.listings = [] := List.isEmpty_iff.mp hempty
    constructor
    · intro _
      rw [if_pos hempty]
    · intro hne
      exfalso
      apply hne
      rw [hnil]
      rfl
  · rw [if_neg hempty]
    constructor
    · intro hnp
      rw [hnp]
      rfl
    · intro hne
      rcases hx : nativePrices resp.listings with _ | ⟨x, xs⟩
      · exact absurd hx hne
      · have h := foldl_min_spec xs x
        refine ⟨xs.foldl min x, rfl, ?_, ?_⟩
        · rcases h.2.2 with heq | hmem
          · rw [heq]; exact List.mem_cons_self x xs
          · exact List.mem_cons_of_mem x hmem
        · intro p hp
          rcases List.mem_cons.mp hp with hpx | hpxs
          · rw [hpx]; exact h.1
          · exact h.2.1 p hpxs

/-- Witness for C5 on the concrete response with native end amounts `1e18`,
`3e18`, `2e18`: the price list is non-empty and the reader returns `some` of
its minimum. -/
theorem C5_floor_only_witness :
    nativePrices exampleResp.listings ≠ [] ∧
    (∃ m, LiquidLootClient.get_floor_price exampleLLC "cool-cats" exampleResp = some m ∧
      m ∈ nativePrices exampleResp.listings ∧
      ∀ p ∈ nativePrices exampleResp.listings, m ≤ p) := by
  have hne : nativePrices exampleResp.listings ≠ [] := by
    rw [exampleResp_nativePrices]
    intro h
    cases h
  exact ⟨hne, (C5_floor_only exampleLLC "cool-cats" exampleResp).2 hne⟩

/-- C10, confirmed: the Marketplace B reader never uses its slug argument —
for any two slugs it issues the identical request and maps the same decoded
response to the identical result, so the returned floor is not scoped to the
requested collection. -/
theorem C10_slug_ignored (c : LiquidLootClient) (slug1 slug2 : String)
    (resp : ListingsResponse) :
    c.listings_request slug1 = c.listings_request slug2 ∧
    c.get_floor_price slug1 resp = c.get_floor_price slug2 resp :=
  ⟨rfl, rfl⟩

/-- C8, confirmed: decoding a Marketplace A price field strips the `$bigint`
marker, parses the remainder as a base-10 integer, and divides by `1e18`:
`"1500000000000000000$bigint"` decodes to 1.5 and `"0$bigint"` to 0. -/
theorem C8_parse_bigint :
    parse_bigint "1500000000000000000$bigint" = some (3/2) ∧
    parse_bigint "0$bigint" = some 0 := by
  constructor
  · have h : parseInt (replaceAll "1500000000000000000$bigint" "$bigint")
        = some 1500000000000000000 := by decide
    unfold parse_bigint
    rw [h]
    simp only [Option.map]
    norm_num
  · have h : parseInt (replaceAll "0$bigint" "$bigint") = some 0 := by decide
    unfold parse_bigint
    rw [h]
    simp only [Option.map]
    norm_num

theorem httpGo_ok (oracle : Nat → Outcome) (backoff : ℚ) (fuel attempt s : Nat)
    (h : attemptOutcome (oracle attempt) = .ok s) :
    httpGo oracle backoff (fuel + 1) attempt = (.ok s, []) := by
  simp only [httpGo, h]

theorem httpGo_last (oracle : Nat → Outcome) (backoff : ℚ) (attempt : Nat) :
    httpGo oracle backoff 0 attempt = (attemptOutcome (oracle attempt), []) :=
  rfl

theorem httpGo_err (oracle : Nat → Outcome) (backoff : ℚ) (fuel attempt : Nat)
    (e : HttpError) (h : attemptOutcome (oracle attempt) = .error e) :
    httpGo oracle backoff (fuel + 1) attempt =
      ((httpGo oracle backoff fuel (attempt + 1)).1,
        backoff ^ attempt :: (httpGo oracle backoff fuel (attempt + 1)).2) := by
  simp only [httpGo, h]

/-- C6, confirmed: a status of 500 or more, a timeout and a connection error
are each a retryable failure; with the default 3 attempts, two retryable
failures followed by an under-500 response give the successful response after
sleeping `backoff ^ 1` and `backoff ^ 2` seconds, and a third retryable
failure on the final attempt is propagated to the caller after the same two
sleeps. -/
theorem C6_retry (backoff : ℚ) (s : Nat) (f1 f2 f3 : Outcome)
    (hs : s < 500)
    (h1 : ∃ e, attemptOutcome f1 = .error e)
    (h2 : ∃ e, attemptOutcome f2 = .error e)
    (h3 : ∃ e, attemptOutcome f3 = .error e) :
    (∀ t, 500 ≤ t → attemptOutcome (.resp t) = .error (.serverError t)) ∧
    attemptOutcome .timeoutErr = .error .timeoutErr ∧
    attemptOutcome .connErr = .error .connErr ∧
    http_request (fun n => if n = 1 then f1 else if n = 2 then f2 else .resp s) 3 backoff
      = (.ok s, [backoff ^ 1, backoff ^ 2]) ∧
    (∃ e3, attemptOutcome f3 = .error e3 ∧
      http_request (fun n => if n = 1 then f1 else if n = 2 then f2 else f3) 3 backoff
        = (.error e3, [backoff ^ 1, backoff ^ 2])) := by
  obtain ⟨e1, he1⟩ := h1
  obtain ⟨e2, he2⟩ := h2
  obtain ⟨e3, he3⟩ := h3
  refine ⟨?_, rfl, rfl, ?_, e3, he3, ?_⟩
  · intro t ht
    simp only [attemptOutcome, if_pos ht]
  · show httpGo _ backoff 2 1 = _
    rw [httpGo_err _ backoff 1 1 e1 he1, httpGo_err _ backoff 0 2 e2 he2,
      httpGo_last]
    have hok : attemptOutcome (Outcome.resp s) = .ok s := by
      simp only [attemptOutcome, if_neg (not_le.mpr hs)]
    show ((attemptOutcome (Outcome.resp s), ([] : List ℚ)).1,
        backoff ^ 1 :: (attemptOutcome (Outcome.resp s), ([] : List ℚ)).2.cons (backoff ^ 2)) = _
    rw [hok]
  · show httpGo _ backoff 2 1 = _
    rw [httpGo_err _ backoff 1 1 e1 he1, httpGo_err _ backoff 0 2 e2 he2,
      httpGo_last]
    show ((attemptOutcome f3, ([] : List ℚ)).1,
        backoff ^ 1 :: (attemptOutcome f3, ([] : List ℚ)).2.cons (backoff ^ 2)) = _
    rw [he3]

/-- Witness for C6 with `backoff = 1.5`, two 500 responses, a final timeout
for the failing run, and a 200 response on the third attempt for the
succeeding run. -/
theorem C6_retry_witness :
    ((200 : Nat) < 500) ∧
    (∃ e, attemptOutcome (.resp 500) = .error e) ∧
    (∃ e, attemptOutcome .timeoutErr = .error e) ∧
    ((∀ t, 500 ≤ t → attemptOutcome (.resp t) = .error (.serverError t)) ∧
      attemptOutcome .timeoutErr = .error .timeoutErr ∧
      attemptOutcome .connErr = .error .connErr ∧
      http_request (fun n => if n = 1 then .resp 500 else if n = 2 then .resp 500
          else .resp 200) 3 (3/2)
        = (.ok 200, [(3/2) ^ 1, (3/2) ^ 2]) ∧
      (∃ e3, attemptOutcome .timeoutErr = .error e3 ∧
        http_request (fun n => if n = 1 then .resp 500 else if n = 2 then .resp 500
            else Outcome.timeoutErr) 3 (3/2)
          = (.error e3, [(3/2) ^ 1, (3/2) ^ 2]))) := by
  refine ⟨by norm_num, ⟨.serverError 500, rfl⟩, ⟨.timeoutErr, rfl⟩, ?_⟩
  exact C6_retry (3/2) 200 (.resp 500) (.resp 500) .timeoutErr (by norm_num)
    ⟨.serverError 500, rfl⟩ ⟨.serverError 500, rfl⟩ ⟨.timeoutErr, rfl⟩

/-- C7, confirmed: syncing a collection only fetches from the two
marketplaces and logs — the trace contains no pricing call and no
listing-update request — and the trace is identical whatever the value of the
`dry_run` flag. -/
theorem C7_read_only (slug : String) (d1 d2 : Bool) (dripStats : ℚ × ℚ)
    (llFloor : Option ℚ) :
    (sync_collection slug d1 dripStats llFloor).all
        (fun a => !a.isPricingCall && !a.isUpdateRequest) = true ∧
    sync_collection slug d1 dripStats llFloor
      = sync_collection slug d2 dripStats llFloor :=
  ⟨rfl, rfl⟩

theorem run_cycle_slugs (slugs : List String)
    (sync : String → Except String (List Action)) :
    (run_cycle slugs sync).map CycleEvent.slug = slugs := by
  induction slugs with
  | nil => rfl
  | cons s rest ih =>
    unfold run_cycle at *
    rw [List.map_cons, List.map_cons, ih]
    cases sync s <;> rfl

/-- C9, confirmed: in one cycle, a collection whose sync raises is logged as
an error and every other collection — before and after it — is still
processed in order: the cycle records exactly one event per configured slug. -/
theorem C9_error_isolated (pre post : List String) (s msg : String)
    (sync : String → Except String (List Action)) (h : sync s = .error msg) :
    run_cycle (pre ++ s :: post) sync =
      run_cycle pre sync ++ CycleEvent.errorLogged s msg :: run_cycle post sync ∧
    (run_cycle (pre ++ s :: post) sync).map CycleEvent.slug = pre ++ s :: post := by
  constructor
  · unfold run_cycle
    rw [List.map_append, List.map_cons, h]
  · exact run_cycle_slugs _ _

/-- Witness for C9: with slugs `["good1", "bad", "good2"]` and a sync that
fails only on `"bad"`, the failing collection is logged and both healthy
collections are still processed. -/
theorem C9_error_isolated_witness :
    exampleSync "bad" = .error "boom" ∧
    (run_cycle (["good1"] ++ "bad" :: ["good2"]) exampleSync =
        run_cycle ["good1"] exampleSync ++
          CycleEvent.errorLogged "bad" "boom" :: run_cycle ["good2"] exampleSync ∧
      (run_cycle (["good1"] ++ "bad" :: ["good2"]) exampleSync).map CycleEvent.slug
        = ["good1"] ++ "bad" :: ["good2"]) := by
  have h : exampleSync "bad" = .error "boom" := rfl
  exact ⟨h, C9_error_isolated ["good1"] ["good2"] "bad" "boom" exampleSync h⟩

end NftBot
